import Mathlib

/-!
Verification of the Excel rendering utility (src/utils/excel_writer.py).

The Python class ExcelWriter consumes a pandas DataFrame and writes a styled
worksheet.  Below is a shallow embedding of its data model and of every pass
of write_to_excel: the cell-writing/number-format pass, the auto-fit column
widths, the row-coloring rules, the candidate-column coloring, the flag-column
hiding, the column-letter conversion, and the borders/alignment pass.
Mutation of worksheet cells is modelled as explicit state passing on
functional grids (row, column 1-based, matching Excel coordinates); the
possible KeyError raised by an unguarded pandas lookup is modelled with
Option (none = the exception propagates, some = normal completion).
-/

set_option maxRecDepth 8192

namespace ExcelWriter

/-- Scalar cell values of the input DataFrame as the writer distinguishes
them: strings, integers, booleans (Python bool is a subtype of int for the
isinstance test) and missing values (pandas NaN). -/
inductive Value where
  | str (s : String)
  | int (n : Int)
  | bool (b : Bool)
  | null
deriving DecidableEq, Repr

/-- pd.notna: false exactly on missing values. -/
def notna : Value → Bool
  | .null => false
  | _ => true

/-- Python truthiness of a cell value, as used by
`if is_partner_match` / `if is_dept_match` (note: NaN is truthy in Python). -/
def truthy : Value → Bool
  | .str s => decide (s ≠ "")
  | .int n => decide (n ≠ 0)
  | .bool b => b
  | .null => true

/-- Python str() of a cell value, as used by _calculate_text_width. -/
def pyStr : Value → String
  | .str s => s
  | .int n => toString n
  | .bool b => if b then "True" else "False"
  | .null => "nan"

/-- Sublist test on character lists: pat occurs contiguously in s.
Executable counterpart of Python's `pat in s` substring test. -/
def containsSub : List Char → List Char → Bool
  | [], pat => pat.isEmpty
  | s@(_ :: rest), pat => pat.isPrefixOf s || containsSub rest pat

/-- Python substring test `pat in s`. -/
def strContains (s pat : String) : Bool :=
  containsSub s.data pat.data

/-- Python `s.startswith(pre)`. -/
def strStartsWith (s pre : String) : Bool :=
  pre.data.isPrefixOf s.data

/-- The input table: ordered column names and rows of scalar values
(a pandas DataFrame as the writer uses it). -/
structure DataFrame where
  columns : List String
  rows : List (List Value)
deriving Repr

/-- Index of a column name in the column list (first match), none if the
column is absent.  Models the pandas column lookup of `df.at[i, name]`
and the `name in columns` membership test. -/
def colIndex : List String → String → Option Nat
  | [], _ => none
  | c :: rest, name =>
      if c = name then some 0 else (colIndex rest name).map (· + 1)

/-- `df.at[rowIdx, name]`: none models the KeyError raised when the column
is absent (pandas raises; a present column on an in-range row yields the
stored value). -/
def dfAt (df : DataFrame) (rowIdx : Nat) (name : String) : Option Value :=
  match colIndex df.columns name, df.rows.get? rowIdx with
  | some j, some row => row.get? j
  | _, _ => none

-- Color constants of the ExcelWriter class.
def COLOR_GREEN : String := "C6EFCE"
def COLOR_RED : String := "FFC7CE"
def COLOR_YELLOW : String := "FFEB9C"
def COLOR_YELLOW_LIGHT : String := "FFF9E6"
def COLOR_BLUE : String := "DDEBF7"
def COLOR_BLUE_LIGHT : String := "F0F6FC"
def HEADER_GRAY : String := "D9D9D9"

-- Literal column names used by _apply_colors and _color_candidate_columns.
def FLAG_PARTNER : String := "_取引先完全一致"
def FLAG_DEPT : String := "_部門完全一致"
def SRC_PARTNER : String := "STREAMED元の取引先"
def SRC_DEPT : String := "STREAMED元の部門"
def CAND_MARK : String := "候補"
def FLAG_MARK : String := "_"

/-- exclude_patterns=['候補', '_'] passed by _apply_colors to _color_row. -/
def EXCLUDE_PATS : List String := [CAND_MARK, FLAG_MARK]

/-- The fill state of the worksheet: background color per (row, column),
1-based Excel coordinates; none = no fill set. -/
abbrev Fill := Nat → Nat → Option String

/-- Setting one cell's PatternFill. -/
def setFill (fill : Fill) (r c : Nat) (color : String) : Fill :=
  fun r2 c2 => if r2 = r ∧ c2 = c then some color else fill r2 c2

/-- Loop body of _color_row: `for col_idx, col_name in enumerate(columns, 1)`,
skipping any column whose name matches one of the exclude patterns
(Python substring test `pattern in col_name`), filling the rest.
start is the 0-based position of the head of names in the column list. -/
def colorRowAux (excelRow : Nat) (color : String) (pats : List String) :
    Nat → List String → Fill → Fill
  | _, [], fill => fill
  | start, name :: rest, fill =>
      colorRowAux excelRow color pats (start+1) rest
        (if pats.any (fun p => strContains name p) then fill
         else setFill fill excelRow (start+1) color)

/-- _color_row(excel_row, columns, color, exclude_patterns). -/
def colorRow (excelRow : Nat) (columns : List String) (color : String)
    (pats : List String) (fill : Fill) : Fill :=
  colorRowAux excelRow color pats 0 columns fill

/-- _color_column: `for row_idx in range(2, row_count + 2)` colors the data
rows (header excluded) of one column. -/
def colorColumn (colIdx rowCount : Nat) (color : String) (fill : Fill) : Fill :=
  (List.range rowCount).foldl (fun f k => setFill f (k+2) colIdx color) fill

/-- The exact-name dispatch of _color_candidate_columns. -/
def candidateColor (name : String) : Option String :=
  if name = SRC_PARTNER then some COLOR_YELLOW_LIGHT
  else if name = "取引先候補1" then some COLOR_YELLOW
  else if name = "取引先候補2" ∨ name = "取引先候補3" then some COLOR_YELLOW_LIGHT
  else if name = SRC_DEPT then some COLOR_BLUE_LIGHT
  else if name = "部門候補1" then some COLOR_BLUE
  else if name = "部門候補2" ∨ name = "部門候補3" then some COLOR_BLUE_LIGHT
  else none

/-- Loop of _color_candidate_columns over `enumerate(columns, 1)`. -/
def colorCandidateAux (rowCount : Nat) : Nat → List String → Fill → Fill
  | _, [], fill => fill
  | start, name :: rest, fill =>
      colorCandidateAux rowCount (start+1) rest
        (match candidateColor name with
         | some k => colorColumn (start+1) rowCount k fill
         | none => fill)

/-- _color_candidate_columns(df, columns). -/
def colorCandidateColumns (df : DataFrame) (fill : Fill) : Fill :=
  colorCandidateAux df.rows.length 0 df.columns fill

/-- has_partner of _apply_colors:
`df.at[row_idx, 'STREAMED元の取引先'] if 'STREAMED元の取引先' in columns else ''`. -/
def hasPartnerVal (df : DataFrame) (i : Nat) : Value :=
  if SRC_PARTNER ∈ df.columns then (dfAt df i SRC_PARTNER).getD Value.null
  else Value.str ""

/-- has_dept of _apply_colors, with the same guard for its source column. -/
def hasDeptVal (df : DataFrame) (i : Nat) : Value :=
  if SRC_DEPT ∈ df.columns then (dfAt df i SRC_DEPT).getD Value.null
  else Value.str ""

/-- The guard under which the partner branch of _apply_colors calls
_color_row: the flag column exists and has_partner is non-null, non-empty. -/
def partnerRuleFires (df : DataFrame) (i : Nat) : Bool :=
  decide (FLAG_PARTNER ∈ df.columns) && notna (hasPartnerVal df i) &&
    decide (hasPartnerVal df i ≠ Value.str "")

/-- The inner condition of the department branch:
`'_取引先完全一致' not in columns or pd.isna(df.at[row_idx, 'STREAMED元の取引先'])
or df.at[row_idx, 'STREAMED元の取引先'] == ''`.
The lookup is NOT guarded by a membership test, so when the partner flag
column exists but the source-partner column is absent the lookup raises
KeyError: modelled by none. -/
def deptSuppressed (df : DataFrame) (i : Nat) : Option Bool :=
  if FLAG_PARTNER ∈ df.columns then
    match dfAt df i SRC_PARTNER with
    | none => none
    | some v => some (!notna v || decide (v = Value.str ""))
  else some true

/-- The outer condition of the department branch: the flag column exists and
has_dept is non-null, non-empty. -/
def deptOuter (df : DataFrame) (i : Nat) : Bool :=
  decide (FLAG_DEPT ∈ df.columns) && notna (hasDeptVal df i) &&
    decide (hasDeptVal df i ≠ Value.str "")

/-- Whether the department branch calls _color_row for row i
(some true / some false), or raises KeyError (none).  The inner lookup is
only evaluated when the outer condition holds, matching Python's
short-circuit order. -/
def deptRuleFires (df : DataFrame) (i : Nat) : Option Bool :=
  if deptOuter df i then deptSuppressed df i else some false

/-- Fill state after the partner branch of _apply_colors for row i. -/
def partnerFill (df : DataFrame) (i : Nat) (fill : Fill) : Fill :=
  if partnerRuleFires df i then
    colorRow (i+2) df.columns
      (if truthy ((dfAt df i FLAG_PARTNER).getD Value.null) then COLOR_GREEN
       else COLOR_RED)
      EXCLUDE_PATS fill
  else fill

/-- One iteration of the per-row loop of _apply_colors (row index i,
Excel row i+2): partner branch, then department branch. -/
def rowColorStep (df : DataFrame) (i : Nat) (fill : Fill) : Option Fill :=
  match deptRuleFires df i with
  | none => none
  | some true =>
      some (colorRow (i+2) df.columns
        (if truthy ((dfAt df i FLAG_DEPT).getD Value.null) then COLOR_GREEN
         else COLOR_RED)
        EXCLUDE_PATS (partnerFill df i fill))
  | some false => some (partnerFill df i fill)

/-- The per-row loop of _apply_colors over rows 0..n-1. -/
def applyRowColorsAux (df : DataFrame) : Nat → Fill → Option Fill
  | 0, fill => some fill
  | n+1, fill =>
      match applyRowColorsAux df n fill with
      | none => none
      | some f => rowColorStep df n f

/-- The row-coloring part of _apply_colors: `for row_idx in range(len(df))`. -/
def applyRowColors (df : DataFrame) (fill : Fill) : Option Fill :=
  applyRowColorsAux df df.rows.length fill

/-- _apply_colors: row coloring, then _color_candidate_columns on top. -/
def applyColors (df : DataFrame) (fill : Fill) : Option Fill :=
  match applyRowColors df fill with
  | none => none
  | some f => some (colorCandidateColumns df f)

/-- _get_column_letter: bijective base-26 spreadsheet column names.  The
Python `while col_idx > 0` loop is modelled with explicit fuel (the loop
strictly decreases col_idx, so col_idx itself bounds the iteration count). -/
def getColumnLetterAux : Nat → Nat → List Char → List Char
  | 0, _, acc => acc
  | _+1, 0, acc => acc
  | fuel+1, n+1, acc =>
      getColumnLetterAux fuel (n / 26) (Char.ofNat (65 + n % 26) :: acc)

/-- _get_column_letter(col_idx). -/
def getColumnLetter (colIdx : Nat) : String :=
  String.mk (getColumnLetterAux colIdx colIdx [])

/-- Loop of _hide_flag_columns over `enumerate(columns, 1)`: the letters of
the column dimensions whose hidden attribute is set. -/
def hiddenLettersAux : Nat → List String → List String
  | _, [] => []
  | start, name :: rest =>
      if strStartsWith name FLAG_MARK then
        getColumnLetter (start+1) :: hiddenLettersAux (start+1) rest
      else hiddenLettersAux (start+1) rest

/-- _hide_flag_columns(columns). -/
def hiddenLetters (columns : List String) : List String :=
  hiddenLettersAux 0 columns

/-- _calculate_text_width: each character counts 1 if its code point is at
most 127, else 2. -/
def calculateTextWidth (text : String) : Nat :=
  text.data.foldl (fun w ch => w + if 127 < ch.toNat then 2 else 1) 0

/-- The values of a named column across the rows (`df[column]`). -/
def columnValues (df : DataFrame) (name : String) : List Value :=
  match colIndex df.columns name with
  | some j => df.rows.map (fun row => (row.get? j).getD Value.null)
  | none => []

/-- _auto_fit_columns for one column: the running maximum starts at the
header's width, non-null values update it, then clamp(max + 2, 10, 60). -/
def autoFitWidth (df : DataFrame) (name : String) : Nat :=
  min (max ((columnValues df name).foldl
      (fun m v => if notna v then max m (calculateTextWidth (pyStr v)) else m)
      (calculateTextWidth name) + 2) 10) 60

/-- The specification's wording of the width base: the maximum display width
over the header text and every non-null cell value. -/
def specMaxWidth (df : DataFrame) (name : String) : Nat :=
  ((columnValues df name).filter (fun v => notna v)).foldl
    (fun m v => max m (calculateTextWidth (pyStr v))) (calculateTextWidth name)

/-- isinstance(value, (int, float)) and pd.notna(value): in Python a bool is
an instance of int, a string is neither, and NaN fails the notna test. -/
def isNumericValue : Value → Bool
  | .int _ => true
  | .bool _ => true
  | .str _ => false
  | .null => false

/-- Number format and alignment state of one cell. -/
structure CellFmt where
  numberFormat : Option String
  horizontal : Option String
  vertical : Option String
  border : Bool
deriving DecidableEq, Repr

/-- A fresh openpyxl cell: no number format, no alignment, no border. -/
def defaultFmt : CellFmt :=
  { numberFormat := none, horizontal := none, vertical := none, border := false }

/-- Format state of the whole worksheet. -/
abbrev FmtGrid := Nat → Nat → CellFmt

/-- The number-format/alignment effect of the cell-writing loop of
write_to_excel: on a data row (r_idx > 1), a column whose name contains
'金額' with a numeric non-null value gets number_format '#,##0' and
right/center alignment; every other cell keeps the fresh default. -/
def writeFmt (df : DataFrame) : FmtGrid := fun r c =>
  if 2 ≤ r ∧ r ≤ df.rows.length + 1 ∧ 1 ≤ c ∧ c ≤ df.columns.length then
    match df.columns.get? (c-1), (df.rows.get? (r-2)).bind (fun row => row.get? (c-1)) with
    | some name, some v =>
        if strContains name "金額" && isNumericValue v then
          { numberFormat := some "#,##0", horizontal := some "right",
            vertical := some "center", border := false }
        else defaultFmt
    | _, _ => defaultFmt
  else defaultFmt

/-- _apply_borders: every cell of the used range (rows 1..len(df)+1, columns
1..len(columns)) gets a thin border; data-row cells of '金額' columns keep an
alignment whose horizontal is already 'right' and are otherwise set to
right/center; all other cells (header row included) are set to left/center.
Cells are each visited once by iter_rows, so the pass is per-cell. -/
def applyBorders (df : DataFrame) (g : FmtGrid) : FmtGrid := fun r c =>
  if 1 ≤ r ∧ r ≤ df.rows.length + 1 ∧ 1 ≤ c ∧ c ≤ df.columns.length then
    if 2 ≤ r then
      match df.columns.get? (c-1) with
      | some name =>
          if strContains name "金額" then
            if (g r c).horizontal ≠ some "right" then
              { (g r c) with
                border := true
                horizontal := some "right"
                vertical := some "center" }
            else { (g r c) with border := true }
          else
            { (g r c) with
              border := true
              horizontal := some "left"
              vertical := some "center" }
      | none =>
          { (g r c) with
            border := true
            horizontal := some "left"
            vertical := some "center" }
    else
      { (g r c) with
        border := true
        horizontal := some "left"
        vertical := some "center" }
  else g r c

/-- The in-memory outcome of write_to_excel: the written grid of values
(header row first), the fill state, the format state, the hidden column
letters, the per-column widths and the returned path. -/
structure RenderResult where
  grid : List (List Value)
  fill : Fill
  fmt : FmtGrid
  hidden : List String
  widths : List (String × Nat)
  path : String

/-- Fill state before _apply_colors: the header row was filled gray by the
cell-writing loop, no other fill is set. -/
def initialFill (df : DataFrame) : Fill := fun r c =>
  if r = 1 ∧ 1 ≤ c ∧ c ≤ df.columns.length then some HEADER_GRAY else none

/-- Fallback result used only to name concrete results of successful runs. -/
def emptyResult : RenderResult :=
  { grid := [], fill := fun _ _ => none, fmt := fun _ _ => defaultFmt,
    hidden := [], widths := [], path := "" }

/-- write_to_excel(df, output_path): writes the header row then one row per
DataFrame row, applies formats, widths, colors (which may raise KeyError:
none), hiding and borders, and returns the output path. -/
def writeToExcel (df : DataFrame) (outputPath : String) : Option RenderResult :=
  match applyColors df (initialFill df) with
  | none => none
  | some fill =>
      some { grid := (df.columns.map Value.str) :: df.rows,
             fill := fill,
             fmt := applyBorders df (writeFmt df),
             hidden := hiddenLetters df.columns,
             widths := df.columns.map (fun name => (name, autoFitWidth df name)),
             path := outputPath }

/-- The everywhere-empty fill, used as a base state for concrete runs. -/
def fillNone : Fill := fun _ _ => none

/-- Valuation step for column letters: bijective base 26 digit of one
character ('A' = 1, ..., 'Z' = 26). -/
def lvStep (acc : Nat) (ch : Char) : Nat := acc * 26 + (ch.toNat - 64)

-- Concrete inputs used to instantiate the claims below.
def dfC1x : DataFrame :=
  ⟨[FLAG_DEPT, SRC_DEPT, "摘要"],
   [[Value.bool false, Value.str "営業部", Value.str "メモ"]]⟩

def fC1x : Fill := (applyRowColors dfC1x fillNone).getD fillNone

def dfC2x : DataFrame :=
  ⟨[FLAG_PARTNER, SRC_PARTNER, "a_b"],
   [[Value.bool true, Value.str "ACME", Value.str "x"]]⟩

def fC2x : Fill := (applyRowColors dfC2x fillNone).getD fillNone

def dfC3x : DataFrame :=
  ⟨[FLAG_PARTNER, FLAG_DEPT, SRC_DEPT],
   [[Value.bool true, Value.bool false, Value.str "営業部"]]⟩

def dfC4x : DataFrame :=
  ⟨["取引先候補1", "摘要"], [[Value.str "v", Value.str "w"]]⟩

def resC4x : RenderResult := (writeToExcel dfC4x "out.xlsx").getD emptyResult

def dfC5x : DataFrame := ⟨["金額"], [[Value.int 1200]]⟩

def dfC6x : DataFrame := ⟨["項目"], [[Value.str "あいうえお"]]⟩

def dfC7x : DataFrame := ⟨["_flag", "名前"], []⟩

def resC7x : RenderResult := (writeToExcel dfC7x "out.xlsx").getD emptyResult

def dfC8x : DataFrame := ⟨["金額1", "摘要"], [[Value.int 5, Value.str "x"]]⟩

def dfC9x : DataFrame := ⟨["列A"], []⟩

def resC9x : RenderResult := (writeToExcel dfC9x "out.xlsx").getD emptyResult

/-! Helper lemmas about the embedded passes. -/

theorem colIndex_eq_none_of_not_mem (l : List String) (name : String)
    (h : name ∉ l) : colIndex l name = none := by
  induction l with
  | nil => rfl
  | cons c rest ih =>
      rw [colIndex, if_neg (fun hc => h (by rw [← hc]; exact List.mem_cons_self c rest)),
        ih (fun hm => h (List.mem_cons_of_mem c hm))]
      rfl

theorem dfAt_eq_none_of_not_mem (df : DataFrame) (i : Nat) (name : String)
    (h : name ∉ df.columns) : dfAt df i name = none := by
  rw [dfAt, colIndex_eq_none_of_not_mem df.columns name h]

theorem colorRowAux_ne (excelRow : Nat) (color : String) (pats : List String)
    (names : List String) (start : Nat) (fill : Fill) (r c : Nat) (hr : r ≠ excelRow) :
    colorRowAux excelRow color pats start names fill r c = fill r c := by
  induction names generalizing start fill with
  | nil => rfl
  | cons name rest ih =>
      rw [colorRowAux, ih]
      split
      · rfl
      · simp only [setFill]
        rw [if_neg]
        rintro ⟨h1, -⟩
        exact hr h1

theorem colorRowAux_le (excelRow : Nat) (color : String) (pats : List String)
    (names : List String) (start : Nat) (fill : Fill) (r c : Nat) (hc : c ≤ start) :
    colorRowAux excelRow color pats start names fill r c = fill r c := by
  induction names generalizing start fill with
  | nil => rfl
  | cons name rest ih =>
      rw [colorRowAux, ih _ _ (by omega)]
      split
      · rfl
      · simp only [setFill]
        rw [if_neg]
        rintro ⟨-, h2⟩
        omega

theorem colorRowAux_get (excelRow : Nat) (color : String) (pats : List String)
    (names : List String) (start : Nat) (fill : Fill) (j : Nat) (name : String)
    (hj : names.get? j = some name) :
    colorRowAux excelRow color pats start names fill excelRow (start+1+j) =
      if pats.any (fun p => strContains name p) then fill excelRow (start+1+j)
      else some color := by
  induction names generalizing start fill j with
  | nil => simp at hj
  | cons name0 rest ih =>
      cases j with
      | zero =>
          simp only [List.get?] at hj
          cases hj
          rw [colorRowAux, colorRowAux_le _ _ _ _ _ _ _ _ (by omega)]
          split
          · rfl
          · simp [setFill]
      | succ j2 =>
          simp only [List.get?] at hj
          have hidx : start + 1 + (j2 + 1) = start + 1 + 1 + j2 := by omega
          rw [colorRowAux, hidx,
            ih (start+1) (if pats.any (fun p => strContains name0 p) then fill
              else setFill fill excelRow (start+1) color) j2 hj]
          by_cases hname : pats.any (fun p => strContains name p)
          · rw [if_pos hname, if_pos hname]
            split
            · rfl
            · simp only [setFill]
              rw [if_neg]
              rintro ⟨-, h2⟩
              omega
          · rw [if_neg hname, if_neg hname]

theorem colorRow_get (excelRow : Nat) (columns : List String) (color : String)
    (fill : Fill) (c : Nat) (name : String) (hc : 1 ≤ c)
    (hname : columns.get? (c-1) = some name) :
    colorRow excelRow columns color EXCLUDE_PATS fill excelRow c =
      if EXCLUDE_PATS.any (fun p => strContains name p) then fill excelRow c
      else some color := by
  have h1 : 0 + 1 + (c-1) = c := by omega
  have h2 := colorRowAux_get excelRow color EXCLUDE_PATS columns 0 fill (c-1) name hname
  rw [h1] at h2
  exact h2

theorem colorRow_excluded (excelRow : Nat) (columns : List String) (color : String)
    (fill : Fill) (r c : Nat) (name : String) (hc : 1 ≤ c)
    (hname : columns.get? (c-1) = some name)
    (hex : EXCLUDE_PATS.any (fun p => strContains name p) = true) :
    colorRow excelRow columns color EXCLUDE_PATS fill r c = fill r c := by
  by_cases hr : r = excelRow
  · rw [hr, colorRow_get excelRow columns color fill c name hc hname, if_pos hex]
  · exact colorRowAux_ne _ _ _ _ _ _ _ _ hr

theorem colorColumn_apply (colIdx rowCount : Nat) (color : String) (fill : Fill)
    (r c : Nat) :
    colorColumn colIdx rowCount color fill r c =
      if 2 ≤ r ∧ r ≤ rowCount + 1 ∧ c = colIdx then some color else fill r c := by
  induction rowCount generalizing fill with
  | zero =>
      rw [colorColumn, List.range_zero, List.foldl_nil, if_neg]
      omega
  | succ n ih =>
      rw [colorColumn, List.range_succ, List.foldl_append, List.foldl_cons, List.foldl_nil]
      show setFill (colorColumn colIdx n color fill) (n+2) colIdx color r c = _
      simp only [setFill]
      rw [ih]
      by_cases h1 : r = n + 2 ∧ c = colIdx
      · rw [if_pos h1, if_pos (by omega)]
      · rw [if_neg h1]
        by_cases h2 : 2 ≤ r ∧ r ≤ n + 1 ∧ c = colIdx
        · rw [if_pos h2, if_pos (by omega)]
        · rw [if_neg h2, if_neg (by omega)]

theorem colorCandidateAux_le (rowCount : Nat) (names : List String) (start : Nat)
    (fill : Fill) (r c : Nat) (hc : c ≤ start) :
    colorCandidateAux rowCount start names fill r c = fill r c := by
  induction names generalizing start fill with
  | nil => rfl
  | cons name rest ih =>
      rw [colorCandidateAux, ih _ _ (by omega)]
      cases candidateColor name with
      | none => rfl
      | some k =>
          simp only []
          rw [colorColumn_apply, if_neg]
          omega

theorem colorCandidateAux_get (rowCount : Nat) (names : List String) (start : Nat)
    (fill : Fill) (r : Nat) (j : Nat) (name : String) (hj : names.get? j = some name) :
    colorCandidateAux rowCount start names fill r (start+1+j) =
      match candidateColor name with
      | some k => if 2 ≤ r ∧ r ≤ rowCount + 1 then some k else fill r (start+1+j)
      | none => fill r (start+1+j) := by
  induction names generalizing start fill j with
  | nil => simp at hj
  | cons name0 rest ih =>
      cases j with
      | zero =>
          simp only [List.get?] at hj
          cases hj
          rw [colorCandidateAux, colorCandidateAux_le _ _ _ _ _ _ (by omega)]
          cases hk : candidateColor name with
          | none => simp only []
          | some k =>
              simp only []
              rw [colorColumn_apply]
              by_cases h2 : 2 ≤ r ∧ r ≤ rowCount + 1
              · rw [if_pos (by omega), if_pos h2]
              · rw [if_neg (by omega), if_neg h2]
      | succ j2 =>
          simp only [List.get?] at hj
          have hidx : start + 1 + (j2 + 1) = start + 1 + 1 + j2 := by omega
          rw [colorCandidateAux, hidx,
            ih (start+1) (match candidateColor name0 with
              | some k => colorColumn (start+1) rowCount k fill
              | none => fill) j2 hj]
          cases candidateColor name with
          | none =>
              simp only []
              cases candidateColor name0 with
              | none => rfl
              | some k0 =>
                  simp only []
                  rw [colorColumn_apply, if_neg]
                  omega
          | some k =>
              simp only []
              by_cases h2 : 2 ≤ r ∧ r ≤ rowCount + 1
              · rw [if_pos h2, if_pos h2]
              · rw [if_neg h2, if_neg h2]
                cases candidateColor name0 with
                | none => rfl
                | some k0 =>
                    simp only []
                    rw [colorColumn_apply, if_neg]
                    omega

theorem colorCandidateColumns_get (df : DataFrame) (fill : Fill) (r c : Nat)
    (name : String) (hc : 1 ≤ c) (hname : df.columns.get? (c-1) = some name) :
    colorCandidateColumns df fill r c =
      match candidateColor name with
      | some k => if 2 ≤ r ∧ r ≤ df.rows.length + 1 then some k else fill r c
      | none => fill r c := by
  have h1 : 0 + 1 + (c-1) = c := by omega
  have h2 := colorCandidateAux_get df.rows.length df.columns 0 fill r (c-1) name hname
  rw [h1] at h2
  exact h2

theorem colorRow_ne (excelRow : Nat) (columns : List String) (color : String)
    (pats : List String) (fill : Fill) (r c : Nat) (hr : r ≠ excelRow) :
    colorRow excelRow columns color pats fill r c = fill r c :=
  colorRowAux_ne excelRow color pats columns 0 fill r c hr

theorem partnerFill_ne (df : DataFrame) (i : Nat) (fill : Fill) (r c : Nat)
    (hr : r ≠ i + 2) : partnerFill df i fill r c = fill r c := by
  rw [partnerFill]
  split
  · exact colorRowAux_ne _ _ _ _ _ _ _ _ hr
  · rfl

theorem partnerFill_excluded (df : DataFrame) (i : Nat) (fill : Fill) (r c : Nat)
    (name : String) (hc : 1 ≤ c) (hname : df.columns.get? (c-1) = some name)
    (hex : EXCLUDE_PATS.any (fun p => strContains name p) = true) :
    partnerFill df i fill r c = fill r c := by
  rw [partnerFill]
  split
  · exact colorRow_excluded _ _ _ _ _ _ _ hc hname hex
  · rfl

theorem rowColorStep_ne (df : DataFrame) (i : Nat) (fill f2 : Fill)
    (h : rowColorStep df i fill = some f2) (r c : Nat) (hr : r ≠ i + 2) :
    f2 r c = fill r c := by
  unfold rowColorStep at h
  cases hd : deptRuleFires df i with
  | none => rw [hd] at h; cases h
  | some b =>
      rw [hd] at h
      cases b with
      | false =>
          injection h with h
          rw [← h]
          exact partnerFill_ne df i fill r c hr
      | true =>
          injection h with h
          rw [← h, colorRow_ne _ _ _ _ _ _ _ hr]
          exact partnerFill_ne df i fill r c hr

theorem rowColorStep_excluded (df : DataFrame) (i : Nat) (fill f2 : Fill)
    (h : rowColorStep df i fill = some f2) (r c : Nat) (name : String) (hc : 1 ≤ c)
    (hname : df.columns.get? (c-1) = some name)
    (hex : EXCLUDE_PATS.any (fun p => strContains name p) = true) :
    f2 r c = fill r c := by
  unfold rowColorStep at h
  cases hd : deptRuleFires df i with
  | none => rw [hd] at h; cases h
  | some b =>
      rw [hd] at h
      cases b with
      | false =>
          injection h with h
          rw [← h]
          exact partnerFill_excluded df i fill r c name hc hname hex
      | true =>
          injection h with h
          rw [← h, colorRow_excluded _ _ _ _ _ _ _ hc hname hex]
          exact partnerFill_excluded df i fill r c name hc hname hex

theorem applyRowColorsAux_succ (df : DataFrame) (n : Nat) (fill f : Fill)
    (h : applyRowColorsAux df (n+1) fill = some f) :
    ∃ g, applyRowColorsAux df n fill = some g ∧ rowColorStep df n g = some f := by
  rw [applyRowColorsAux] at h
  cases hg : applyRowColorsAux df n fill with
  | none => rw [hg] at h; cases h
  | some g => rw [hg] at h; exact ⟨g, rfl, h⟩

theorem applyRowColorsAux_untouched (df : DataFrame) (n : Nat) (fill f : Fill)
    (h : applyRowColorsAux df n fill = some f) (r c : Nat)
    (hr : ∀ i, i < n → r ≠ i + 2) :
    f r c = fill r c := by
  induction n generalizing f with
  | zero => injection h with h; rw [← h]
  | succ n ih =>
      obtain ⟨g, hg, hstep⟩ := applyRowColorsAux_succ df n fill f h
      rw [rowColorStep_ne df n g f hstep r c (hr n (by omega))]
      exact ih g hg (fun i hi => hr i (by omega))

theorem applyRowColorsAux_at (df : DataFrame) (n : Nat) (fill f : Fill) (i : Nat)
    (hin : i < n) (h : applyRowColorsAux df n fill = some f) :
    ∃ g f2, applyRowColorsAux df i fill = some g ∧ rowColorStep df i g = some f2 ∧
      ∀ c, f (i+2) c = f2 (i+2) c := by
  induction n generalizing f with
  | zero => omega
  | succ n ih =>
      obtain ⟨g, hg, hstep⟩ := applyRowColorsAux_succ df n fill f h
      by_cases hii : i = n
      · subst hii
        exact ⟨g, f, hg, hstep, fun c => rfl⟩
      · obtain ⟨g2, f2, hg2, hstep2, heq⟩ := ih g (by omega) hg
        refine ⟨g2, f2, hg2, hstep2, fun c => ?_⟩
        rw [rowColorStep_ne df n g f hstep (i+2) c (by omega)]
        exact heq c

theorem applyRowColorsAux_excluded (df : DataFrame) (n : Nat) (fill f : Fill)
    (h : applyRowColorsAux df n fill = some f) (r c : Nat) (name : String)
    (hc : 1 ≤ c) (hname : df.columns.get? (c-1) = some name)
    (hex : EXCLUDE_PATS.any (fun p => strContains name p) = true) :
    f r c = fill r c := by
  induction n generalizing f with
  | zero => injection h with h; rw [← h]
  | succ n ih =>
      obtain ⟨g, hg, hstep⟩ := applyRowColorsAux_succ df n fill f h
      rw [rowColorStep_excluded df n g f hstep r c name hc hname hex]
      exact ih g hg

theorem partner_fires_dept_suppressed (df : DataFrame) (i : Nat)
    (h : partnerRuleFires df i = true) : deptRuleFires df i = some false := by
  unfold partnerRuleFires at h
  simp only [Bool.and_eq_true, decide_eq_true_eq] at h
  obtain ⟨⟨hflag, hnn⟩, hne⟩ := h
  have hsrc : SRC_PARTNER ∈ df.columns := by
    by_contra hs
    rw [hasPartnerVal, if_neg hs] at hne
    exact hne rfl
  rw [hasPartnerVal, if_pos hsrc] at hnn hne
  cases hat : dfAt df i SRC_PARTNER with
  | none =>
      rw [hat] at hnn
      simp [Option.getD, notna] at hnn
  | some v =>
      rw [hat] at hnn hne
      simp only [Option.getD_some] at hnn hne
      have hsupp : deptSuppressed df i = some false := by
        rw [deptSuppressed, if_pos hflag, hat]
        simp [hnn, hne]
      rw [deptRuleFires]
      split
      · exact hsupp
      · rfl

theorem deptRuleFires_ne_none (df : DataFrame) (fill f : Fill)
    (h : applyRowColors df fill = some f) (i : Nat) (hi : i < df.rows.length) :
    deptRuleFires df i ≠ none := by
  obtain ⟨g, f2, hg, hstep, -⟩ := applyRowColorsAux_at df df.rows.length fill f i hi h
  intro hd
  unfold rowColorStep at hstep
  rw [hd] at hstep
  cases hstep

theorem char_toNat_base (k : Nat) (h : k < 26) :
    (Char.ofNat (65 + k)).toNat = 65 + k := by
  interval_cases k <;> rfl

theorem getColumnLetterAux_val (fuel : Nat) :
    ∀ (n : Nat) (acc : List Char), n ≤ fuel →
      (getColumnLetterAux fuel n acc).foldl lvStep 0 = acc.foldl lvStep n := by
  induction fuel with
  | zero =>
      intro n acc hn
      have hz : n = 0 := by omega
      subst hz
      rfl
  | succ fuel ih =>
      intro n acc hn
      match n with
      | 0 => rfl
      | m+1 =>
          rw [getColumnLetterAux,
            ih (m/26) (Char.ofNat (65 + m % 26) :: acc) (by omega), List.foldl_cons]
          have hc : (Char.ofNat (65 + m % 26)).toNat = 65 + m % 26 :=
            char_toNat_base (m % 26) (by omega)
          have hstep : lvStep (m/26) (Char.ofNat (65 + m % 26)) = m + 1 := by
            rw [lvStep, hc]
            omega
          rw [hstep]

theorem getColumnLetter_val (n : Nat) :
    (getColumnLetter n).data.foldl lvStep 0 = n := by
  rw [getColumnLetter]
  show (getColumnLetterAux n n []).foldl lvStep 0 = n
  rw [getColumnLetterAux_val n n [] (le_refl n)]
  rfl

theorem getColumnLetter_inj (m n : Nat) (h : getColumnLetter m = getColumnLetter n) :
    m = n := by
  have hm := getColumnLetter_val m
  rw [h, getColumnLetter_val n] at hm
  omega

theorem hiddenLettersAux_mem (names : List String) (start : Nat) (s : String) :
    s ∈ hiddenLettersAux start names ↔
      ∃ j name, names.get? j = some name ∧ strStartsWith name FLAG_MARK = true ∧
        s = getColumnLetter (start + 1 + j) := by
  induction names generalizing start with
  | nil => simp [hiddenLettersAux]
  | cons name0 rest ih =>
      rw [hiddenLettersAux]
      by_cases h0 : strStartsWith name0 FLAG_MARK = true
      · rw [if_pos h0, List.mem_cons, ih]
        constructor
        · rintro (rfl | ⟨j, name, hj, hs, rfl⟩)
          · exact ⟨0, name0, rfl, h0, rfl⟩
          · refine ⟨j+1, name, hj, hs, ?_⟩
            congr 1
            omega
        · rintro ⟨j, name, hj, hs, rfl⟩
          cases j with
          | zero =>
              cases hj
              exact Or.inl rfl
          | succ j2 =>
              right
              refine ⟨j2, name, hj, hs, ?_⟩
              congr 1
              omega
      · rw [if_neg h0, ih]
        constructor
        · rintro ⟨j, name, hj, hs, rfl⟩
          refine ⟨j+1, name, hj, hs, ?_⟩
          congr 1
          omega
        · rintro ⟨j, name, hj, hs, rfl⟩
          cases j with
          | zero =>
              cases hj
              exact absurd hs h0
          | succ j2 =>
              refine ⟨j2, name, hj, hs, ?_⟩
              congr 1
              omega

theorem foldl_width_filter (l : List Value) :
    ∀ a : Nat,
      l.foldl (fun m v => if notna v then max m (calculateTextWidth (pyStr v)) else m) a =
      (l.filter (fun v => notna v)).foldl
        (fun m v => max m (calculateTextWidth (pyStr v))) a := by
  induction l with
  | nil => intro a; rfl
  | cons v rest ih =>
      intro a
      rw [List.foldl_cons, List.filter_cons]
      by_cases hv : notna v = true
      · rw [if_pos hv, if_pos hv, List.foldl_cons, ih]
      · rw [if_neg hv, if_neg hv, ih]

/-! The claims. -/

/-- Claim C3 (code_bug): the spec says a missing expected column only makes
the dependent styling rule be skipped, and in particular that rendering
succeeds when both exact-match flag columns are present but the
source-partner column is absent.  The code instead evaluates
`df.at[row_idx, 'STREAMED元の取引先']` unguarded inside the department
suppression check and raises KeyError on such input (modelled as none):
the partner branch guards this very lookup with a membership test, so the
spec matches the evident intent and the unguarded lookup is the slip. -/
theorem C3_missing_source_column_keyerror :
    writeToExcel dfC3x "out.xlsx" = none ∧
    SRC_PARTNER ∉ dfC3x.columns ∧ FLAG_PARTNER ∈ dfC3x.columns ∧
    FLAG_DEPT ∈ dfC3x.columns ∧
    dfAt dfC3x 0 SRC_DEPT = some (Value.str "営業部") :=
  ⟨rfl, by decide, by decide, by decide, rfl⟩

/-- Claim C5: on a data row, a cell of a column whose name contains the
amount marker '金額' receives number format '#,##0' and right/center
alignment when its value is numeric and non-null, and keeps the untouched
default format (no number format, no alignment) otherwise. -/
theorem C5_amount_format (df : DataFrame) (r c : Nat) (name : String) (v : Value)
    (hr2 : 2 ≤ r) (hrle : r ≤ df.rows.length + 1) (hc1 : 1 ≤ c)
    (hcle : c ≤ df.columns.length) (hname : df.columns.get? (c-1) = some name)
    (hv : (df.rows.get? (r-2)).bind (fun row => row.get? (c-1)) = some v)
    (hamount : strContains name "金額" = true) :
    (isNumericValue v = true →
      writeFmt df r c =
        { numberFormat := some "#,##0", horizontal := some "right",
          vertical := some "center", border := false }) ∧
    (isNumericValue v = false → writeFmt df r c = defaultFmt) := by
  unfold writeFmt
  rw [if_pos ⟨hr2, hrle, hc1, hcle⟩, hname, hv]
  constructor
  · intro hn
    simp [hamount, hn]
  · intro hn
    simp [hamount, hn]

/-- Witness for C5 at a concrete table: an integer in a '金額' column is
formatted with the thousands separator and right/center alignment. -/
theorem C5_witness :
    writeFmt dfC5x 2 1 =
      { numberFormat := some "#,##0", horizontal := some "right",
        vertical := some "center", border := false } :=
  (C5_amount_format dfC5x 2 1 "金額" (Value.int 1200) (by decide) (by decide)
    (by decide) (by decide) rfl rfl (by decide)).1 rfl

/-- Claim C6: the column width is min(max(W + 2, 10), 60) where W is the
maximum display width (code point at most 127 counts 1, otherwise 2) over
the header text and every non-null cell value; a column whose longest
content is five full-width characters (width 10) gets width 12. -/
theorem C6_auto_fit_width :
    (∀ (df : DataFrame) (name : String),
      autoFitWidth df name = min (max (specMaxWidth df name + 2) 10) 60) ∧
    autoFitWidth dfC6x "項目" = 12 := by
  constructor
  · intro df name
    rw [autoFitWidth, specMaxWidth, foldl_width_filter]
  · decide

/-- Claim C7: after rendering, a column is marked hidden exactly when its
name starts with the flag marker '_', regardless of the values it holds
(the hiding pass reads only the column names). -/
theorem C7_flag_columns_hidden (df : DataFrame) (path : String) (res : RenderResult)
    (hok : writeToExcel df path = some res) (i : Nat) (name : String)
    (h1 : 1 ≤ i) (hname : df.columns.get? (i-1) = some name) :
    getColumnLetter i ∈ res.hidden ↔ strStartsWith name FLAG_MARK = true := by
  have hhid : res.hidden = hiddenLetters df.columns := by
    unfold writeToExcel at hok
    cases hac : applyColors df (initialFill df) with
    | none => rw [hac] at hok; cases hok
    | some fl =>
        rw [hac] at hok
        injection hok with hok
        rw [← hok]
  rw [hhid, hiddenLetters, hiddenLettersAux_mem]
  constructor
  · rintro ⟨j, name2, hj, hs, heq⟩
    have hij : i = 0 + 1 + j := getColumnLetter_inj _ _ heq
    have hji : j = i - 1 := by omega
    subst hji
    rw [hname] at hj
    injection hj with hj
    rw [hj]
    exact hs
  · intro hs
    refine ⟨i-1, name, hname, hs, ?_⟩
    congr 1
    omega

/-- Witness for C7 at a concrete table: the first column '_flag' is hidden. -/
theorem C7_witness :
    getColumnLetter 1 ∈ resC7x.hidden ↔ strStartsWith "_flag" FLAG_MARK = true :=
  C7_flag_columns_hidden dfC7x "out.xlsx" resC7x rfl 1 "_flag" (by decide) rfl

/-- Claim C9: rendering writes the header row first followed by exactly one
row per input row and returns the given path on success; a table with zero
data rows renders successfully with only the header row. -/
theorem C9_render_shape (df : DataFrame) (path : String) :
    (∀ res, writeToExcel df path = some res →
      res.grid.length = df.rows.length + 1 ∧
      res.grid.get? 0 = some (df.columns.map Value.str) ∧
      res.grid.drop 1 = df.rows ∧ res.path = path) ∧
    (df.rows = [] → ∃ res, writeToExcel df path = some res ∧
      res.grid = [df.columns.map Value.str]) := by
  constructor
  · intro res hok
    unfold writeToExcel at hok
    cases hac : applyColors df (initialFill df) with
    | none => rw [hac] at hok; cases hok
    | some fl =>
        rw [hac] at hok
        injection hok with hok
        rw [← hok]
        exact ⟨rfl, rfl, rfl, rfl⟩
  · intro hrows
    have hlen : df.rows.length = 0 := by rw [hrows]; rfl
    have hrc : applyRowColors df (initialFill df) = some (initialFill df) := by
      unfold applyRowColors
      rw [hlen]
      rfl
    have hsome : applyColors df (initialFill df) =
        some (colorCandidateColumns df (initialFill df)) := by
      unfold applyColors
      rw [hrc]
    refine ⟨{ grid := (df.columns.map Value.str) :: df.rows,
              fill := colorCandidateColumns df (initialFill df),
              fmt := applyBorders df (writeFmt df),
              hidden := hiddenLetters df.columns,
              widths := df.columns.map (fun name => (name, autoFitWidth df name)),
              path := path }, ?_, ?_⟩
    · unfold writeToExcel
      rw [hsome]
    · rw [hrows]

/-- Witness for C9 at a concrete empty table. -/
theorem C9_witness :
    resC9x.grid.length = dfC9x.rows.length + 1 ∧
    resC9x.grid.get? 0 = some (dfC9x.columns.map Value.str) ∧
    resC9x.grid.drop 1 = dfC9x.rows ∧ resC9x.path = "out.xlsx" :=
  (C9_render_shape dfC9x "out.xlsx").1 resC9x rfl

/-- Claim C10: the column-letter conversion is the bijective base-26
spreadsheet naming (1 = A, 26 = Z, 27 = AA, 702 = ZZ, 703 = AAA) and is
injective on positive indices, so widths and hiding address distinct
columns even beyond the 26th. -/
theorem C10_column_letters :
    getColumnLetter 1 = "A" ∧ getColumnLetter 26 = "Z" ∧ getColumnLetter 27 = "AA" ∧
    getColumnLetter 702 = "ZZ" ∧ getColumnLetter 703 = "AAA" ∧
    (∀ m n : Nat, 0 < m → 0 < n → getColumnLetter m = getColumnLetter n → m = n) :=
  ⟨by decide, by decide, by decide, by decide, by decide,
   fun m n _ _ h => getColumnLetter_inj m n h⟩

/-- Witness for C10: the injectivity statement applied at a concrete index. -/
theorem C10_witness : (37 : Nat) = 37 :=
  C10_column_letters.2.2.2.2.2 37 37 (by decide) (by decide) rfl

/-- Claim C1: on any run of the row-coloring pass that completes, the
department rule fires for a data row exactly when the department flag column
exists, the row's source-department value is non-null and non-empty, and the
partner rule did not fire (equivalently: partner flag column absent, or the
has_partner value — the empty string when the source column is absent — is
null or empty); when it fires, every non-excluded cell of the row is filled
green if the flag value is the boolean true and red if it is false. -/
theorem C1_department_rule (df : DataFrame) (f0 f : Fill)
    (hok : applyRowColors df f0 = some f) (i : Nat) (hi : i < df.rows.length) :
    (deptRuleFires df i = some true ↔
      (FLAG_DEPT ∈ df.columns ∧ notna (hasDeptVal df i) = true ∧
       hasDeptVal df i ≠ Value.str "" ∧ partnerRuleFires df i = false)) ∧
    (partnerRuleFires df i = false ↔
      (FLAG_PARTNER ∉ df.columns ∨ notna (hasPartnerVal df i) = false ∨
       hasPartnerVal df i = Value.str "")) ∧
    (∀ b : Bool, deptRuleFires df i = some true →
      dfAt df i FLAG_DEPT = some (Value.bool b) →
      ∀ c name, 1 ≤ c → df.columns.get? (c-1) = some name →
        strContains name CAND_MARK = false → strContains name FLAG_MARK = false →
        f (i+2) c = some (if b then COLOR_GREEN else COLOR_RED)) := by
  have hB : partnerRuleFires df i = false ↔
      (FLAG_PARTNER ∉ df.columns ∨ notna (hasPartnerVal df i) = false ∨
       hasPartnerVal df i = Value.str "") := by
    by_cases h1 : FLAG_PARTNER ∈ df.columns <;>
      by_cases h2 : notna (hasPartnerVal df i) = true <;>
      by_cases h3 : hasPartnerVal df i = Value.str "" <;>
      simp [partnerRuleFires, h1, h2, h3]
  refine ⟨⟨?_, ?_⟩, hB, ?_⟩
  · intro hfire
    by_cases ho : deptOuter df i = true
    · have ho2 := ho
      unfold deptOuter at ho2
      simp only [Bool.and_eq_true, decide_eq_true_eq] at ho2
      obtain ⟨⟨hflag, hnn⟩, hne⟩ := ho2
      refine ⟨hflag, hnn, hne, ?_⟩
      cases hq : partnerRuleFires df i with
      | false => rfl
      | true =>
          rw [partner_fires_dept_suppressed df i hq] at hfire
          simp at hfire
    · unfold deptRuleFires at hfire
      rw [if_neg ho] at hfire
      simp at hfire
  · rintro ⟨hflag, hnn, hne, hpf⟩
    have houter : deptOuter df i = true := by
      unfold deptOuter
      simp [hflag, hnn, hne]
    unfold deptRuleFires
    rw [if_pos houter]
    by_cases hpmem : FLAG_PARTNER ∈ df.columns
    · unfold deptSuppressed
      rw [if_pos hpmem]
      cases hat : dfAt df i SRC_PARTNER with
      | none =>
          exfalso
          apply deptRuleFires_ne_none df f0 f hok i hi
          unfold deptRuleFires
          rw [if_pos houter]
          unfold deptSuppressed
          rw [if_pos hpmem, hat]
      | some v =>
          have hsrcmem : SRC_PARTNER ∈ df.columns := by
            by_contra hs
            rw [dfAt_eq_none_of_not_mem df i SRC_PARTNER hs] at hat
            cases hat
          rcases hB.mp hpf with h | h | h
          · exact absurd hpmem h
          · rw [hasPartnerVal, if_pos hsrcmem, hat, Option.getD_some] at h
            simp [h]
          · rw [hasPartnerVal, if_pos hsrcmem, hat, Option.getD_some] at h
            simp [h]
    · unfold deptSuppressed
      rw [if_neg hpmem]
  · intro b hfire hflagval c name hc hname hcand hflagm
    obtain ⟨g, f2, hg, hstep, heq⟩ :=
      applyRowColorsAux_at df df.rows.length f0 f i hi hok
    rw [heq c]
    unfold rowColorStep at hstep
    rw [hfire] at hstep
    injection hstep with hstep
    rw [← hstep,
      colorRow_get (i+2) df.columns _ (partnerFill df i g) c name hc hname,
      if_neg (by simp [EXCLUDE_PATS, hcand, hflagm]), hflagval, Option.getD_some]
    rfl

/-- Witness for C1 at a concrete table: partner flag column absent,
department flag false, non-empty source-department: the non-excluded cell
of the data row is red. -/
theorem C1_witness :
    applyRowColors dfC1x fillNone = some fC1x ∧ fC1x 2 3 = some COLOR_RED := by
  refine ⟨rfl, ?_⟩
  have h := (C1_department_rule dfC1x fillNone fC1x rfl 0 (by decide)).2.2 false
    (by decide) rfl 3 "摘要" (by decide) rfl (by decide) (by decide)
  exact h

/-- Claim C2 counterexample: in dfC2x the partner rule fires (flag column
and non-empty source-partner), the third column is named "a_b", which does
not contain '候補' and does not start with the flag marker, yet its cell is
not filled by the row coloring (the code excludes any column whose name
contains '_' anywhere, not only as a leading marker), refuting the claim
that exactly the cells of columns neither containing '候補' nor starting
with '_' are filled. -/
theorem C2_counterexample :
    applyRowColors dfC2x fillNone = some fC2x ∧
    partnerRuleFires dfC2x 0 = true ∧
    dfC2x.columns.get? 2 = some "a_b" ∧
    strContains "a_b" CAND_MARK = false ∧
    strStartsWith "a_b" FLAG_MARK = false ∧
    fC2x 2 2 = some COLOR_GREEN ∧
    fC2x 2 3 = none :=
  ⟨rfl, by decide, by decide, by decide, by decide, rfl, rfl⟩

/-- Claim C2 as amended: when a row-coloring rule fires for a data row, the
filled cells are exactly those whose column name neither contains '候補'
nor contains the flag marker '_' anywhere in the name (not merely as a
prefix); every column whose name contains '候補' or contains '_' keeps its
previous fill. -/
theorem C2_row_exclusion (df : DataFrame) (f0 f : Fill)
    (hok : applyRowColors df f0 = some f) (i : Nat) (hi : i < df.rows.length)
    (hfire : partnerRuleFires df i = true ∨ deptRuleFires df i = some true)
    (c : Nat) (name : String) (hc : 1 ≤ c) (hname : df.columns.get? (c-1) = some name) :
    (strContains name CAND_MARK = false → strContains name FLAG_MARK = false →
      (f (i+2) c = some COLOR_GREEN ∨ f (i+2) c = some COLOR_RED)) ∧
    ((strContains name CAND_MARK = true ∨ strContains name FLAG_MARK = true) →
      f (i+2) c = f0 (i+2) c) := by
  constructor
  · intro hcand hflagm
    have hexf : ¬ (EXCLUDE_PATS.any (fun p => strContains name p) = true) := by
      simp [EXCLUDE_PATS, hcand, hflagm]
    obtain ⟨g, f2, hg, hstep, heq⟩ :=
      applyRowColorsAux_at df df.rows.length f0 f i hi hok
    rw [heq c]
    rcases hfire with hp | hd
    · have hd2 := partner_fires_dept_suppressed df i hp
      unfold rowColorStep at hstep
      rw [hd2] at hstep
      injection hstep with hstep
      rw [← hstep]
      unfold partnerFill
      rw [if_pos hp, colorRow_get (i+2) df.columns _ g c name hc hname, if_neg hexf]
      by_cases ht : truthy ((dfAt df i FLAG_PARTNER).getD Value.null) = true
      · rw [if_pos ht]
        exact Or.inl rfl
      · rw [if_neg ht]
        exact Or.inr rfl
    · unfold rowColorStep at hstep
      rw [hd] at hstep
      injection hstep with hstep
      rw [← hstep,
        colorRow_get (i+2) df.columns _ (partnerFill df i g) c name hc hname,
        if_neg hexf]
      by_cases ht : truthy ((dfAt df i FLAG_DEPT).getD Value.null) = true
      · rw [if_pos ht]
        exact Or.inl rfl
      · rw [if_neg ht]
        exact Or.inr rfl
  · intro hex
    have hext : EXCLUDE_PATS.any (fun p => strContains name p) = true := by
      rcases hex with h | h <;> simp [EXCLUDE_PATS, h]
    exact applyRowColorsAux_excluded df df.rows.length f0 f hok (i+2) c name hc hname hext

/-- Witness for the amended C2 on the counterexample table: the non-excluded
column 2 is colored, the '_'-containing column 3 keeps its previous fill. -/
theorem C2_witness :
    (fC2x 2 2 = some COLOR_GREEN ∨ fC2x 2 2 = some COLOR_RED) ∧
    fC2x 2 3 = fillNone 2 3 := by
  constructor
  · exact (C2_row_exclusion dfC2x fillNone fC2x rfl 0 (by decide) (Or.inl (by decide))
      2 SRC_PARTNER (by decide) (by decide)).1 (by decide) (by decide)
  · exact (C2_row_exclusion dfC2x fillNone fC2x rfl 0 (by decide) (Or.inl (by decide))
      3 "a_b" (by decide) (by decide)).2 (Or.inr (by decide))

/-- Claim C4: after rendering, the fixed exact-name columns carry their
column-level fill on every data row regardless of the row-level outcome,
because _color_candidate_columns runs after the row coloring. -/
theorem C4_candidate_columns (df : DataFrame) (path : String) (res : RenderResult)
    (hok : writeToExcel df path = some res)
    (c : Nat) (name : String) (hc : 1 ≤ c) (hname : df.columns.get? (c-1) = some name)
    (r : Nat) (hr2 : 2 ≤ r) (hrle : r ≤ df.rows.length + 1) :
    (name = "取引先候補1" → res.fill r c = some COLOR_YELLOW) ∧
    (name = SRC_PARTNER → res.fill r c = some COLOR_YELLOW_LIGHT) ∧
    (name = "取引先候補2" ∨ name = "取引先候補3" → res.fill r c = some COLOR_YELLOW_LIGHT) ∧
    (name = SRC_DEPT → res.fill r c = some COLOR_BLUE_LIGHT) ∧
    (name = "部門候補1" → res.fill r c = some COLOR_BLUE) ∧
    (name = "部門候補2" ∨ name = "部門候補3" → res.fill r c = some COLOR_BLUE_LIGHT) := by
  have hfill : ∃ fr, res.fill = colorCandidateColumns df fr := by
    unfold writeToExcel at hok
    cases hac : applyColors df (initialFill df) with
    | none => rw [hac] at hok; cases hok
    | some fl =>
        rw [hac] at hok
        injection hok with hok
        unfold applyColors at hac
        cases har : applyRowColors df (initialFill df) with
        | none => rw [har] at hac; cases hac
        | some fr =>
            rw [har] at hac
            injection hac with hac
            exact ⟨fr, by rw [← hok, ← hac]⟩
  obtain ⟨fr, hfr⟩ := hfill
  have hmain : ∀ k, candidateColor name = some k → res.fill r c = some k := by
    intro k hk
    rw [hfr, colorCandidateColumns_get df fr r c name hc hname, hk]
    show (if 2 ≤ r ∧ r ≤ df.rows.length + 1 then some k else fr r c) = some k
    rw [if_pos ⟨hr2, hrle⟩]
  refine ⟨fun hn => ?_, fun hn => ?_, fun hn => ?_, fun hn => ?_, fun hn => ?_,
    fun hn => ?_⟩
  · subst hn
    exact hmain COLOR_YELLOW (by decide)
  · subst hn
    exact hmain COLOR_YELLOW_LIGHT (by decide)
  · rcases hn with hn | hn <;> subst hn <;> exact hmain COLOR_YELLOW_LIGHT (by decide)
  · subst hn
    exact hmain COLOR_BLUE_LIGHT (by decide)
  · subst hn
    exact hmain COLOR_BLUE (by decide)
  · rcases hn with hn | hn <;> subst hn <;> exact hmain COLOR_BLUE_LIGHT (by decide)

/-- Witness for C4 at a concrete table: the '取引先候補1' column is solid
yellow on the data row. -/
theorem C4_witness : resC4x.fill 2 1 = some COLOR_YELLOW :=
  (C4_candidate_columns dfC4x "out.xlsx" resC4x rfl 1 "取引先候補1" (by decide) rfl
    2 (by decide) (by decide)).1 rfl

/-- Claim C8: the final borders pass gives every used cell a thin border,
never touches number formats, forces amount-column data cells to horizontal
'right' while leaving an already right-aligned cell's alignment untouched,
and sets every other data cell and every header cell to left/center. -/
theorem C8_borders_alignment (df : DataFrame) (g : FmtGrid) (r c : Nat) (name : String)
    (hr1 : 1 ≤ r) (hrle : r ≤ df.rows.length + 1) (hc1 : 1 ≤ c)
    (hcle : c ≤ df.columns.length) (hname : df.columns.get? (c-1) = some name) :
    (applyBorders df g r c).border = true ∧
    (applyBorders df g r c).numberFormat = (g r c).numberFormat ∧
    (2 ≤ r → strContains name "金額" = true →
      (applyBorders df g r c).horizontal = some "right" ∧
      ((g r c).horizontal = some "right" →
        applyBorders df g r c = { (g r c) with border := true })) ∧
    (2 ≤ r → strContains name "金額" = false →
      (applyBorders df g r c).horizontal = some "left" ∧
      (applyBorders df g r c).vertical = some "center") ∧
    (r = 1 →
      (applyBorders df g r c).horizontal = some "left" ∧
      (applyBorders df g r c).vertical = some "center") := by
  by_cases h2 : 2 ≤ r
  · have hred : applyBorders df g r c =
        (if strContains name "金額" = true then
          if (g r c).horizontal ≠ some "right" then
            { (g r c) with
              border := true
              horizontal := some "right"
              vertical := some "center" }
          else { (g r c) with border := true }
        else
          { (g r c) with
            border := true
            horizontal := some "left"
            vertical := some "center" }) := by
      simp only [applyBorders]
      rw [if_pos ⟨hr1, hrle, hc1, hcle⟩, if_pos h2, hname]
    rw [hred]
    by_cases hkin : strContains name "金額" = true
    · rw [if_pos hkin]
      by_cases hright : (g r c).horizontal = some "right"
      · rw [if_neg (by simp [hright])]
        exact ⟨rfl, rfl, fun _ _ => ⟨hright, fun _ => rfl⟩,
          fun _ hk2 => absurd hkin (by simp [hk2]), fun h1 => by omega⟩
      · rw [if_pos hright]
        exact ⟨rfl, rfl, fun _ _ => ⟨rfl, fun hr2 => absurd hr2 hright⟩,
          fun _ hk2 => absurd hkin (by simp [hk2]), fun h1 => by omega⟩
    · rw [if_neg hkin]
      exact ⟨rfl, rfl, fun _ hk => absurd hk hkin, fun _ _ => ⟨rfl, rfl⟩,
        fun h1 => by omega⟩
  · have hred : applyBorders df g r c =
        { (g r c) with
          border := true
          horizontal := some "left"
          vertical := some "center" } := by
      simp only [applyBorders]
      rw [if_pos ⟨hr1, hrle, hc1, hcle⟩, if_neg h2]
    rw [hred]
    exact ⟨rfl, rfl, fun hh _ => absurd hh h2, fun hh _ => absurd hh h2,
      fun _ => ⟨rfl, rfl⟩⟩

/-- Witness for C8 at a concrete table: the amount cell keeps right
alignment and gains a border, and the header cell is left/center. -/
theorem C8_witness :
    (applyBorders dfC8x (writeFmt dfC8x) 2 1).border = true ∧
    (applyBorders dfC8x (writeFmt dfC8x) 2 1).horizontal = some "right" := by
  have h := C8_borders_alignment dfC8x (writeFmt dfC8x) 2 1 "金額1" (by decide)
    (by decide) (by decide) (by decide) rfl
  exact ⟨h.1, (h.2.2.1 (by decide) (by decide)).1⟩

end ExcelWriter
